import Mathlib

/-!
Verification of the news-ingestion pipeline: a shallow embedding of the
feed fetcher and driver loop (google_news_business_scraper.py), the fuzzy
identifier matcher (isin_matcher.py), the entity-extraction validator
(isin.py) and the summarizer/notifier (prompts.py,
google_news_business_scraper.py). External collaborators (HTTP, the
headless browser, the LLM API, the webhook, the spreadsheet reader and the
date parser) are modelled as explicit oracle parameters; the repository's
own control flow and data transformations are translated directly.
-/

/-- Python's substring test (the `in` operator on strings), on char lists:
`subList pat s` is true when `pat` occurs contiguously inside `s`. -/
def subList (pat : List Char) : List Char → Bool
  | [] => pat.isEmpty
  | c :: rest => pat.isPrefixOf (c :: rest) || subList pat rest

/-- Python's `pat in s` for strings. -/
def pyIn (pat s : String) : Bool :=
  subList pat.data s.data

/-- Python's `str.lower()`, on the underlying char list. -/
def pyLower (s : String) : String :=
  ⟨s.data.map Char.toLower⟩

/-- Python's `str.upper()`, on the underlying char list. -/
def pyUpper (s : String) : String :=
  ⟨s.data.map Char.toUpper⟩

/-- Python's `str.strip()` with no argument: drop whitespace from both
ends. -/
def pyStrip (s : String) : String :=
  ⟨((s.data.dropWhile Char.isWhitespace).reverse.dropWhile Char.isWhitespace).reverse⟩

/-- Python's `str.startswith(pre)`. -/
def pyStartsWith (s pre : String) : Bool :=
  pre.data.isPrefixOf s.data

/-- Accumulator pass behind `pySplit`: `acc` holds the current word
reversed. -/
def pySplitAux : List Char → List Char → List String
  | [], acc => if acc.isEmpty then [] else [⟨acc.reverse⟩]
  | c :: rest, acc =>
    if c.isWhitespace then
      if acc.isEmpty then pySplitAux rest []
      else ⟨acc.reverse⟩ :: pySplitAux rest []
    else pySplitAux rest (c :: acc)

/-- Python's `str.split()` with no argument: split on runs of whitespace,
dropping empty pieces. -/
def pySplit (s : String) : List String :=
  pySplitAux s.data []

example : pySplit "  Tata  Motors " = ["Tata", "Motors"] := by decide
example : pyStrip "  Tata Motors " = "Tata Motors" := by decide
example : pyIn "tata" (pyLower "Tata Motors Ltd") = true := by decide
example : pyIn "acme" (pyLower "Tata Motors Ltd") = false := by decide

/-- One `<item>` element of the RSS response.  Each field is `none` when the
corresponding child element is absent (`item.find(...)` returned `None`). -/
structure RSSItem where
  title : Option String
  link : Option String
  pubDate : Option String
  source : Option String
deriving DecidableEq, Repr

/-- One entry of the list returned by `fetch_business_news_rss`: the dict
built at google_news_business_scraper.py lines 107-113. -/
structure Article where
  title : String
  link : String
  source : String
  pub_date : String
  article_id : String × String
deriving DecidableEq, Repr

/-- Embedding of `fetch_business_news_rss` (google_news_business_scraper.py
lines 29-139).  `parseDate` is the oracle for `dateutil.parser.parse`
composed with the naive-timezone strip: `none` models a parse exception
(the article is then included anyway, per lines 92-97); times are minutes,
and the cutoff is `now - 1440` (a 1440-minute lookback window, line 55).
`processed` is the dedup set of `(title, source)` identity keys.  Items
without a `<link>` are dropped; items strictly older than the cutoff are
dropped; items whose identity key is in `processed` are dropped; the rest
are returned in feed order. -/
def fetch_business_news_rss (parseDate : String → Option Int) (now : Int)
    (processed : List (String × String)) : List RSSItem → List Article
  | [] => []
  | item :: rest =>
    let rest' := fetch_business_news_rss parseDate now processed rest
    let title := item.title.getD "No Title"
    let pub_date := item.pubDate.getD "Unknown"
    let source := item.source.getD "Unknown"
    match item.link with
    | none => rest'
    | some link =>
      let tooOld : Bool :=
        match parseDate pub_date with
        | some t => decide (t < now - 1440)
        | none => false
      if tooOld then rest'
      else if processed.contains (title, source) then rest'
      else { title := title, link := link, source := source, pub_date := pub_date,
             article_id := (title, source) } :: rest'

/-- An RSS item survives the link-presence and freshness filters of the
fetcher (it may still be dropped by the dedup check). -/
def itemPasses (parseDate : String → Option Int) (now : Int) (it : RSSItem) : Bool :=
  it.link.isSome &&
    !(match parseDate (it.pubDate.getD "Unknown") with
      | some t => decide (t < now - 1440)
      | none => false)

/-- Identity key the fetcher derives for an RSS item (line 100). -/
def itemKey (it : RSSItem) : String × String :=
  (it.title.getD "No Title", it.source.getD "Unknown")

example :
    fetch_business_news_rss (fun _ => none) 0 []
      [⟨some "T", some "L", some "P", some "S"⟩] =
    [{ title := "T", link := "L", source := "S", pub_date := "P",
       article_id := ("T", "S") }] := by
  decide

example :
    fetch_business_news_rss (fun _ => some (-2000)) 0 []
      [⟨some "T", some "L", some "P", some "S"⟩] = [] := by
  decide

example :
    fetch_business_news_rss (fun _ => none) 0 [("T", "S")]
      [⟨some "T", some "L", some "P", some "S"⟩] = [] := by
  decide

/-- One row of the reference spreadsheet (isin_matcher.py).  Each cell is
`none` when the spreadsheet holds NaN / the column is absent for it. -/
structure RefRow where
  companyName : Option String
  isinNo : Option String
  nseSymbol : Option String
  bseCode : Option String
  industry1 : Option String
deriving DecidableEq, Repr

/-- The dataframe `pd.read_excel` yields: its rows, plus whether the
column 'Company Name' is present (isin_matcher.py line 55). -/
structure RefTable where
  hasCompanyColumn : Bool
  rows : List RefRow
deriving DecidableEq, Repr

/-- One match dict of the list `get_isin_for_company` returns
(isin_matcher.py lines 87-95). -/
structure MatchResult where
  matched_name : String
  isin : String
  nse_symbol : String
  bse_code : String
  industry : String
  rank : Nat
  score : Nat
deriving DecidableEq, Repr

/-- Stable insertion of a (choice, score) pair into a list sorted by
descending score: the inserted element goes before the first element whose
score does not exceed it, matching Python's stable
`sorted(..., reverse=True)`. -/
def insertDesc (x : String × Nat) : List (String × Nat) → List (String × Nat)
  | [] => [x]
  | y :: ys => if y.2 ≤ x.2 then x :: y :: ys else y :: insertDesc x ys

/-- Stable sort by descending score. -/
def sortDescByScore (l : List (String × Nat)) : List (String × Nat) :=
  l.foldr insertDesc []

/-- Embedding of fuzzywuzzy's `process.extract(query, choices, scorer,
limit)`: score every choice with the scorer oracle, then return the `limit`
best pairs in descending score order (`heapq.nlargest` is documented as
`sorted(..., reverse=True)[:n]`).  The scorer (token_sort_ratio together
with fuzzywuzzy's preprocessing) is third-party code and stays abstract. -/
def processExtract (scorer : String → String → Nat) (query : String)
    (choices : List String) (limit : Nat) : List (String × Nat) :=
  (sortDescByScore (choices.map (fun c => (c, scorer query c)))).take limit

/-- The enrichment loop of `get_isin_for_company` (isin_matcher.py lines
66-95) over the ranked `(rank, (name, score))` triples: pairs below
`min_score` are skipped; for the rest the first spreadsheet row whose
company name equals the match is looked up and its cells (NaN defaulting to
the empty string) fill the result dict.  A failed row lookup models the
`IndexError` of `.iloc[0]`, which the enclosing `except` turns into an
empty overall result: `none` here. -/
def buildResults (rows : List RefRow) (min_score : Nat) :
    List (Nat × String × Nat) → Option (List MatchResult)
  | [] => some []
  | (rank, name, score) :: rest =>
    if score < min_score then buildResults rows min_score rest
    else
      match rows.find? (fun r => r.companyName == some name) with
      | none => none
      | some row =>
        (buildResults rows min_score rest).map
          (fun tail =>
            { matched_name := name, isin := row.isinNo.getD "",
              nse_symbol := row.nseSymbol.getD "", bse_code := row.bseCode.getD "",
              industry := row.industry1.getD "", rank := rank, score := score } :: tail)

/-- Embedding of `get_isin_for_company` (isin_matcher.py lines 19-102).
`readExcel` is the oracle for `pd.read_excel`: `none` models a read
exception, which the function's `except` turns into `[]`.  An empty
company name returns `[]` before the file is read; a table without the
'Company Name' column returns `[]`; otherwise the non-NaN company names
are fuzzily ranked, cut to `top_n`, filtered by `min_score` and enriched. -/
def get_isin_for_company (scorer : String → String → Nat)
    (readExcel : Option RefTable) (company_name : String)
    (top_n : Nat) (min_score : Nat) : List MatchResult :=
  if company_name = "" then []
  else
    match readExcel with
    | none => []
    | some df =>
      if !df.hasCompanyColumn then []
      else
        let company_names := df.rows.filterMap (fun r => r.companyName)
        let ranked := processExtract scorer company_name company_names top_n
        (buildResults df.rows min_score (ranked.enumFrom 1)).getD []

example :
    get_isin_for_company (fun _ c => if c = "Tata Motors Ltd" then 95 else 10)
      (some ⟨true, [⟨some "Tata Motors Ltd", some "INE155A01022", some "TATAMOTORS",
                     some "500570", some "Auto"⟩,
                    ⟨some "Infosys Ltd", some "INE009A01021", some "INFY",
                     some "500209", some "IT"⟩]⟩)
      "Tata Motors" 3 70 =
    [{ matched_name := "Tata Motors Ltd", isin := "INE155A01022",
       nse_symbol := "TATAMOTORS", bse_code := "500570", industry := "Auto",
       rank := 1, score := 95 }] := by
  decide

/-- Outcome of the Gemini call plus JSON extraction in
`extract_company_simple` (isin.py lines 84-103): `failure` models any
exception in the `try` block (API error or `json.JSONDecodeError`);
`parsed` carries the optional `company_name` and `confidence` keys of the
decoded object (`result.get` defaults apply in the embedding). -/
inductive LLMReply where
  | failure
  | parsed (company_name : Option String) (confidence : Option String)
deriving DecidableEq, Repr

/-- Generic terms rejected by the extractor (isin.py line 110). -/
def invalid_terms : List String :=
  ["company", "corporation", "firm", "business", "the", "inc", "ltd", "limited"]

/-- Embedding of `extract_company_simple` (isin.py lines 29-149).
`apiKey` is the `GEMINI_API_KEY` setting (`none` means absent, returning
the empty string at once); `reply` is the oracle for the LLM call and JSON
decode.  The validation pipeline is translated literally: empty or "NONE"
names, generic terms, names absent (case-insensitively) from text and
title even via their first token, and low-confidence answers all yield the
empty string. -/
def extract_company_simple (apiKey : Option String) (reply : LLMReply)
    (article_text : String) (article_title : String) : String :=
  match apiKey with
  | none => ""
  | some _ =>
    match reply with
    | .failure => ""
    | .parsed cn conf =>
      let company_name := pyStrip (cn.getD "")
      let confidence := conf.getD "low"
      if company_name = "" || pyUpper company_name == "NONE" then ""
      else if invalid_terms.contains (pyLower company_name) then ""
      else
        let article_text_lower := pyLower article_text
        let article_title_lower := pyLower article_title
        let company_name_lower := pyLower company_name
        let direct : Bool :=
          pyIn company_name_lower article_text_lower ||
          pyIn company_name_lower article_title_lower
        let words := pySplit company_name
        let appears_in_text : Bool :=
          direct ||
            (decide (1 < words.length) &&
              (match words with
               | [] => false
               | w :: _ =>
                 pyIn (pyLower w) article_text_lower ||
                 pyIn (pyLower w) article_title_lower))
        if !appears_in_text then ""
        else if confidence = "low" then ""
        else company_name

example :
    extract_company_simple (some "k") (.parsed (some "Infosys") (some "high"))
      "Infosys announced a new AI platform today." "Business news" = "Infosys" := by
  decide

example :
    extract_company_simple (some "k") (.parsed (some "Acme") (some "high"))
      "Infosys announced a new AI platform today." "Business news" = "" := by
  decide

example :
    extract_company_simple (some "k") (.parsed (some "Tata Motors") (some "high"))
      "Tata reported record quarterly revenue." "" = "Tata Motors" := by
  decide

/-- The structured result of `summarize_article_data` (prompts.py lines
39-43): synopsis, numeric facts and attributed source. -/
structure SummaryResult where
  summary : String
  numeric_data : List String
  source : String
deriving DecidableEq, Repr

/-- Outcome of the Gemini call plus JSON extraction in
`summarize_article_data` (prompts.py lines 96-126): `failure` models any
exception in the `try` block (API error, `json.loads` failure, or the
`ValueError` raised when the decoded value is not a dict); `parsed`
carries the optional keys of the decoded dict. -/
inductive GeminiSummaryReply where
  | failure
  | parsed (summary : Option String) (numeric_data : Option (List String))
      (source : Option String)
deriving DecidableEq, Repr

/-- Embedding of `summarize_article_data` (prompts.py lines 29-134).
The article text, title and company name only shape the prompt sent to the
external model, so they are absorbed into the `reply` oracle.  A missing
API key returns the "API key not configured" placeholder; any failure in
the `try` block returns the "Error processing article" placeholder with an
empty fact list; a decoded dict is completed with the documented
defaults. -/
def summarize_article_data (apiKey : Option String)
    (reply : GeminiSummaryReply) : SummaryResult :=
  match apiKey with
  | none => { summary := "API key not configured", numeric_data := [], source := "Unknown" }
  | some _ =>
    match reply with
    | .failure =>
      { summary := "Error processing article", numeric_data := [], source := "Unknown" }
    | .parsed s nd src =>
      { summary := s.getD "No summary available", numeric_data := nd.getD [],
        source := src.getD "Unknown" }

/-- One article dict as `summarize_multiple_articles` reads it (prompts.py
lines 155-161): the fields `full_article`, `title`, `company_name`,
`article_length` and `source` that the function consults. -/
structure PArticle where
  title : String
  source : String
  full_article : String
  article_length : Nat
  company_name : String
deriving DecidableEq, Repr

/-- Embedding of `summarize_multiple_articles` (prompts.py lines 137-185).
The first component is the returned list: each processed article paired
with the `ai_summary` attached to its copy.  The second component records
which articles `summarize_article_data` was invoked for (the LLM call
log).  Articles with `article_length < 200` or sentinel-marked text are
skipped: they reach neither component. -/
def summarize_multiple_articles (apiKey : Option String)
    (llm : PArticle → GeminiSummaryReply) :
    List PArticle → List (PArticle × SummaryResult) × List PArticle
  | [] => ([], [])
  | a :: rest =>
    let r := summarize_multiple_articles apiKey llm rest
    if a.article_length < 200 then r
    else if pyStartsWith a.full_article "ERROR" || pyStartsWith a.full_article "NO_CONTENT" then r
    else ((a, summarize_article_data apiKey (llm a)) :: r.1, a :: r.2)

example :
    summarize_multiple_articles (some "k") (fun _ => .failure)
      [{ title := "t", source := "s", full_article := "short", article_length := 10,
         company_name := "" }] = ([], []) := by
  decide

/-- A Python value as the notifier sees a batch element: a string, or any
other object (only its `str(...)` rendering matters here). -/
inductive PyItem where
  | str (s : String)
  | other (rendered : String)
deriving DecidableEq, Repr

/-- Python's `str(...)` on a `PyItem`. -/
def pyStr : PyItem → String
  | .str s => s
  | .other r => r

/-- The `message` argument of `send_slack_message`: a list (batch) or any
single value. -/
inductive SlackMsg where
  | single (item : PyItem)
  | batch (items : List PyItem)
deriving DecidableEq, Repr

/-- The batch filter of google_news_business_scraper.py line 400:
`m and isinstance(m, str)` keeps exactly the non-empty strings. -/
def slackKeep : PyItem → Bool
  | .str s => decide (s ≠ "")
  | .other _ => false

/-- Embedding of `send_slack_message` (google_news_business_scraper.py
lines 394-419).  `slackUrl` is the `SLACK_URL` setting; `postStatus` and
`postText` are the oracles for `requests.post` (HTTP status code and
response body of each call).  Returns the list of posted payload texts, in
order, paired with the console output.  When the setting is absent nothing
is posted and a notice is printed; a batch posts one message per non-empty
string element; any other value is posted once as its `str` rendering. -/
def send_slack_message (slackUrl : Option String) (postStatus : String → Nat)
    (postText : String → String) (message : SlackMsg) :
    List String × List String :=
  match slackUrl with
  | none => ([], ["SLACK_URL not found in .env file"])
  | some _ =>
    match message with
    | .batch items =>
      let kept := items.filter slackKeep
      let calls := kept.map pyStr
      let console :=
        (kept.enumFrom 1).flatMap (fun p =>
          let text := pyStr p.2
          if postStatus text = 200 then
            ["Slack message " ++ toString p.1 ++ " sent successfully"]
          else
            ["Failed to send Slack message " ++ toString p.1 ++ ": " ++
               toString (postStatus text),
             "Error: " ++ postText text])
      (calls, console)
    | .single item =>
      let text := pyStr item
      let console :=
        if postStatus text = 200 then ["Slack message sent successfully"]
        else
          ["Failed to send Slack message: " ++ toString (postStatus text),
           "Error: " ++ postText text]
      ([text], console)

example :
    (send_slack_message (some "https://hooks.example") (fun _ => 200) (fun _ => "")
      (.batch [.str "hello", .str "", .other "obj", .str "world"])).1 =
    ["hello", "world"] := by
  decide

example :
    (send_slack_message none (fun _ => 200) (fun _ => "") (.batch [.str "hello"])) =
    ([], ["SLACK_URL not found in .env file"]) := by
  decide

/-- Minimum article length gate (google_news_business_scraper.py line 27). -/
def MIN_ARTICLE_LENGTH : Nat := 200

/-- One dict appended by `scrape_all_articles`
(google_news_business_scraper.py lines 266-278). -/
structure ScrapedArticle where
  title : String
  source : String
  domain : String
  url : String
  pub_date : String
  full_article : String
  article_length : Nat
  company_name : String
  scraped_at : String
  story_index : Nat
  article_index : Nat
deriving DecidableEq, Repr

/-- Building of one scraped-article dict (google_news_business_scraper.py
lines 249-278) for story `i`, article position `j`, at resolved `url`.
`content` is the oracle for `scrape_article_content` (its internal
`try`/`except` already folds failures into the "ERROR:..." and
"NO_CONTENT" sentinel strings, so the oracle returns a plain string);
`domainOf` stands for `urlparse(url).netloc.replace('www.', '')`;
`extract` is the company extractor applied to the scraped text and title;
`nowStr` is the formatted `datetime.now()`. -/
def scrape_one (domainOf content : String → String)
    (extract : String → String → String) (nowStr : String)
    (a : Article) (i j : Nat) (url : String) : ScrapedArticle :=
  let full_article := content url
  let article_length :=
    if pyStartsWith full_article "ERROR" || pyStartsWith full_article "NO_CONTENT"
    then 0 else full_article.length
  let company_name :=
    if MIN_ARTICLE_LENGTH < article_length then extract full_article a.title else ""
  { title := a.title, source := a.source, domain := domainOf url, url := url,
    pub_date := a.pub_date, full_article := full_article,
    article_length := article_length, company_name := company_name,
    scraped_at := nowStr, story_index := i, article_index := j }

/-- The story loop of `scrape_all_articles`
(google_news_business_scraper.py lines 221-288), with `i` the 1-based
story counter.  A Google News link is resolved through the browser oracle
`resolve` (modelling `get_story_url`: `none` when the page URL was empty
or navigation raised, in which case the story is skipped); a direct link
is used as is.  Both branches yield a single-element URL list in the
source, so each surviving story contributes exactly one scraped dict with
`article_index` 1. -/
def scrape_all_go (resolve : String → Option String)
    (domainOf content : String → String)
    (extract : String → String → String) (nowStr : String) (i : Nat) :
    List Article → List ScrapedArticle
  | [] => []
  | a :: rest =>
    let rest' := scrape_all_go resolve domainOf content extract nowStr (i + 1) rest
    if pyIn "news.google.com" a.link then
      match resolve a.link with
      | none => rest'
      | some u => scrape_one domainOf content extract nowStr a i 1 u :: rest'
    else
      scrape_one domainOf content extract nowStr a i 1 a.link :: rest'

/-- Embedding of `scrape_all_articles` (google_news_business_scraper.py
lines 203-292): the story counter starts at 1; an empty input returns the
empty list at once. -/
def scrape_all_articles (resolve : String → Option String)
    (domainOf content : String → String)
    (extract : String → String → String) (nowStr : String)
    (articles : List Article) : List ScrapedArticle :=
  scrape_all_go resolve domainOf content extract nowStr 1 articles

/-- The value `main` returns to the driver loop
(google_news_business_scraper.py lines 482-584): the fetched article list
when anything was scraped (line 581), the empty list when the fetch or the
scrape produced nothing (lines 488, 584).  The ISIN, summarization and
notification stages between lines 493 and 576 operate on the scraped
dicts and the console only; they never touch the fetched list, so they do
not appear in the returned value. -/
def main_returned (parseDate : String → Option Int) (now : Int)
    (processed : List (String × String)) (items : List RSSItem)
    (resolve : String → Option String) (domainOf content : String → String)
    (extract : String → String → String) (nowStr : String) : List Article :=
  let articles := fetch_business_news_rss parseDate now processed items
  if articles.isEmpty then []
  else
    let scraped := scrape_all_articles resolve domainOf content extract nowStr articles
    if scraped.isEmpty then [] else articles

/-- The driver loop's permanent marking step
(google_news_business_scraper.py lines 615-618): every `article_id` of the
list `main` returned is added to the dedup set. -/
def mark_processed (processed : List (String × String))
    (returned : List Article) : List (String × String) :=
  returned.foldl (fun s a => a.article_id :: s) processed

example :
    scrape_all_articles (fun _ => none) (fun _ => "d") (fun _ => "text")
      (fun _ _ => "") "2026-01-01"
      [{ title := "T", link := "https://news.google.com/x", source := "S",
         pub_date := "P", article_id := ("T", "S") }] = [] := by
  decide

/-- Claim C6: for every input, `summarize_article_data` never propagates an
exception (the embedding is a total function); on any parse or API failure
it returns the placeholder synopsis "Error processing article", an empty
numeric-fact list and the placeholder source "Unknown". -/
theorem summarize_failure_placeholder (apiKey : String) :
    summarize_article_data (some apiKey) .failure =
      { summary := "Error processing article", numeric_data := [],
        source := "Unknown" } :=
  rfl

/-- Claim C8: for every message input, when the `SLACK_URL` setting is
absent the notifier performs zero outbound webhook calls and its console
output is exactly the notice line. -/
theorem missing_webhook_no_calls (postStatus : String → Nat)
    (postText : String → String) (message : SlackMsg) :
    (send_slack_message none postStatus postText message).1 = [] ∧
    (send_slack_message none postStatus postText message).2 =
      ["SLACK_URL not found in .env file"] :=
  ⟨rfl, rfl⟩

/-- Claim C9, counterexample: with the webhook URL configured, a batch
holding one message (the empty string) produces zero outbound calls, not
one call per message as claimed. -/
theorem slack_batch_counterexample :
    ¬ ((send_slack_message (some "https://hooks.example") (fun _ => 200)
          (fun _ => "") (.batch [.str ""])).1.length
        = ([PyItem.str ""] : List PyItem).length) := by
  decide

/-- Claim C9, amended: with the webhook URL configured, the notifier
performs exactly one outbound webhook call per non-empty string element of
the batch, in order, and posts exactly those texts. -/
theorem slack_batch_calls_amended (url : String) (postStatus : String → Nat)
    (postText : String → String) (items : List PyItem) :
    (send_slack_message (some url) postStatus postText (.batch items)).1.length
        = items.countP slackKeep ∧
    (send_slack_message (some url) postStatus postText (.batch items)).1
        = (items.filter slackKeep).map pyStr := by
  refine ⟨?_, rfl⟩
  simp [send_slack_message, List.countP_eq_length_filter]

/-- Claim C5: `get_isin_for_company` never raises (the embedding is a total
function); an empty company name, a table missing the company-name column,
and a failed spreadsheet read each return the empty list. -/
theorem get_isin_degrades_to_empty (scorer : String → String → Nat)
    (readExcel : Option RefTable) (name : String) (top_n min_score : Nat)
    (t : RefTable) :
    get_isin_for_company scorer readExcel "" top_n min_score = [] ∧
    (t.hasCompanyColumn = false →
      get_isin_for_company scorer (some t) name top_n min_score = []) ∧
    get_isin_for_company scorer none name top_n min_score = [] := by
  refine ⟨rfl, fun h => ?_, ?_⟩
  · by_cases hn : name = "" <;> simp [get_isin_for_company, hn, h]
  · by_cases hn : name = "" <;> simp [get_isin_for_company, hn]

/-- Claim C7: in every batch passed to the summarizer, an article whose
recorded length is below the 200-character minimum reaches neither the
summarized output nor the LLM call log: it is skipped entirely. -/
theorem short_articles_skipped (apiKey : Option String)
    (llm : PArticle → GeminiSummaryReply) (articles : List PArticle)
    (a : PArticle) (h : a.article_length < 200) :
    a ∉ (summarize_multiple_articles apiKey llm articles).1.map Prod.fst ∧
    a ∉ (summarize_multiple_articles apiKey llm articles).2 := by
  induction articles with
  | nil => simp [summarize_multiple_articles]
  | cons b rest ih =>
    by_cases hb : b.article_length < 200
    · simpa [summarize_multiple_articles, hb] using ih
    · by_cases hs : (pyStartsWith b.full_article "ERROR" ||
          pyStartsWith b.full_article "NO_CONTENT") = true
      · simpa [summarize_multiple_articles, hb, hs] using ih
      · have hab : a ≠ b := fun e => hb (e ▸ h)
        obtain ⟨ih1, ih2⟩ := ih
        have step : summarize_multiple_articles apiKey llm (b :: rest)
            = ((b, summarize_article_data apiKey (llm b))
                :: (summarize_multiple_articles apiKey llm rest).1,
               b :: (summarize_multiple_articles apiKey llm rest).2) := by
          simp [summarize_multiple_articles, hb, hs]
        rw [step]
        constructor
        · rw [List.map_cons]
          intro hmem
          rcases List.mem_cons.mp hmem with e | hm
          · exact hab e
          · exact ih1 hm
        · intro hmem
          rcases List.mem_cons.mp hmem with e | hm
          · exact hab e
          · exact ih2 hm

/-- An article below the minimum length, used to instantiate claim C7. -/
def shortArt : PArticle :=
  { title := "t", source := "s", full_article := "short text",
    article_length := 10, company_name := "" }

/-- Witness for claim C7 at a concrete short article. -/
theorem short_articles_skipped_witness :
    shortArt ∉ (summarize_multiple_articles (some "k") (fun _ => .failure)
        [shortArt]).1.map Prod.fst ∧
    shortArt ∉ (summarize_multiple_articles (some "k") (fun _ => .failure)
        [shortArt]).2 :=
  short_articles_skipped (some "k") (fun _ => .failure) [shortArt] shortArt
    (by decide)

/-- Claim C4: every article the fetcher returns is fresh as far as the
date oracle can tell: no returned article carries a publish date that
parses to a time strictly older than the 1440-minute lookback cutoff.
Equivalently, every feed item whose parsed publish timestamp is older than
the window is excluded. -/
theorem fetch_excludes_stale_items (parseDate : String → Option Int)
    (now : Int) (processed : List (String × String)) (items : List RSSItem)
    (a : Article) (ha : a ∈ fetch_business_news_rss parseDate now processed items)
    (t : Int) (ht : parseDate a.pub_date = some t) :
    ¬ t < now - 1440 := by
  induction items with
  | nil => simp [fetch_business_news_rss] at ha
  | cons it rest ih =>
    rw [fetch_business_news_rss] at ha
    dsimp only at ha
    split at ha
    · exact ih ha
    · split at ha
      · exact ih ha
      · split at ha
        · exact ih ha
        · rcases List.mem_cons.mp ha with rfl | hm
          · rename_i htooOld _
            intro hlt
            apply htooOld
            dsimp only at ht ⊢
            rw [ht]
            simpa using hlt
          · exact ih hm

/-- Date oracle that parses every date string to time 0. -/
def pdZero : String → Option Int := fun _ => some 0

/-- Date oracle that fails to parse every date string. -/
def pdNone : String → Option Int := fun _ => none

/-- A fresh RSS item with all elements present. -/
def freshItem : RSSItem :=
  { title := some "T", link := some "https://example.com/a",
    pubDate := some "P", source := some "S" }

/-- The article the fetcher builds from `freshItem`. -/
def freshArticle : Article :=
  { title := "T", link := "https://example.com/a", source := "S",
    pub_date := "P", article_id := ("T", "S") }

/-- Witness for claim C4 at a concrete feed: the one returned article
parses to time 0, which is not older than the cutoff. -/
theorem fetch_excludes_stale_items_witness : ¬ (0 : Int) < 0 - 1440 :=
  fetch_excludes_stale_items pdZero 0 [] [freshItem] freshArticle (by decide)
    0 rfl

/-- Claim C1, counterexample: with an empty dedup set, a feed response
holding the same item twice yields a returned list in which that identity
key appears twice, not exactly once — the fetcher never dedups within one
poll. -/
theorem fetch_duplicate_ids_counterexample :
    (([] : List (String × String)).contains ("T", "S") = false) ∧
    (fetch_business_news_rss pdNone 0 [] [freshItem, freshItem]).countP
        (fun a => a.article_id == ("T", "S")) = 2 := by
  decide

/-- Every article the fetcher returns has an identity key outside the
dedup set (the exclusion half of the dedup behaviour). -/
theorem fetch_not_processed (parseDate : String → Option Int) (now : Int)
    (processed : List (String × String)) (items : List RSSItem) :
    ∀ a ∈ fetch_business_news_rss parseDate now processed items,
      processed.contains a.article_id = false := by
  induction items with
  | nil => intro a ha; simp [fetch_business_news_rss] at ha
  | cons it rest ih =>
    intro a ha
    rw [fetch_business_news_rss] at ha
    dsimp only at ha
    split at ha
    · exact ih a ha
    · split at ha
      · exact ih a ha
      · split at ha
        · exact ih a ha
        · rcases List.mem_cons.mp ha with rfl | hm
          · rename_i hcontains
            exact Bool.eq_false_iff.mpr hcontains
          · exact ih a hm

/-- Per-key count of the fetcher's output: when an identity key is not in
the dedup set, it appears in the returned list once per feed item that
passes the link and freshness filters and carries that key. -/
theorem fetch_countP_key (parseDate : String → Option Int) (now : Int)
    (processed : List (String × String)) (items : List RSSItem)
    (k : String × String) (hk : processed.contains k = false) :
    (fetch_business_news_rss parseDate now processed items).countP
        (fun a => a.article_id == k)
      = items.countP
          (fun it => itemPasses parseDate now it && (itemKey it == k)) := by
  induction items with
  | nil => rfl
  | cons it rest ih =>
    rw [List.countP_cons]
    rcases hL : it.link with _ | link
    · have hpass : itemPasses parseDate now it = false := by
        simp [itemPasses, hL]
      simp only [fetch_business_news_rss, hL]
      simp [hpass, ih]
    · have hkey : itemKey it = (it.title.getD "No Title", it.source.getD "Unknown") := rfl
      rcases hP : parseDate (it.pubDate.getD "Unknown") with _ | t
      · have hpass : itemPasses parseDate now it = true := by
          simp [itemPasses, hL, hP]
        by_cases hc : processed.contains (it.title.getD "No Title",
            it.source.getD "Unknown") = true
        · have hne : (itemKey it == k) = false := by
            rw [beq_eq_false_iff_ne]
            intro e
            rw [hkey] at e
            rw [e] at hc
            rw [hk] at hc
            exact Bool.false_ne_true hc
          have hmem : (it.title.getD "No Title", it.source.getD "Unknown")
              ∈ processed := List.elem_iff.mp hc
          simp [fetch_business_news_rss, hL, hP, hmem, hpass, hne, ih]
        · have hmem : (it.title.getD "No Title", it.source.getD "Unknown")
              ∉ processed := by
            simpa using Bool.eq_false_iff.mpr hc
          simp [fetch_business_news_rss, hL, hP, hmem, List.countP_cons,
            hpass, ih, itemKey]
      · by_cases ht : t < now - 1440
        · have hpass : itemPasses parseDate now it = false := by
            simp [itemPasses, hL, hP, ht]
          simp only [fetch_business_news_rss, hL, hP]
          simp [ht, hpass, ih]
        · have hpass : itemPasses parseDate now it = true := by
            simp [itemPasses, hL, hP, ht]
          by_cases hc : processed.contains (it.title.getD "No Title",
              it.source.getD "Unknown") = true
          · have hne : (itemKey it == k) = false := by
              rw [beq_eq_false_iff_ne]
              intro e
              rw [hkey] at e
              rw [e] at hc
              rw [hk] at hc
              exact Bool.false_ne_true hc
            have hmem : (it.title.getD "No Title", it.source.getD "Unknown")
                ∈ processed := List.elem_iff.mp hc
            simp [fetch_business_news_rss, hL, hP, ht, hmem, hpass, hne, ih]
          · have hmem : (it.title.getD "No Title", it.source.getD "Unknown")
                ∉ processed := by
              simpa using Bool.eq_false_iff.mpr hc
            simp [fetch_business_news_rss, hL, hP, ht, hmem, List.countP_cons,
              hpass, ih, itemKey]

/-- Claim C1, amended: identity keys already in the dedup set are excluded
from the returned list; an identity key not yet in the set appears once
per feed item carrying it that passes the link and freshness filters —
duplicates of a key within one feed response are NOT collapsed, so "exactly
once" holds only per qualifying occurrence, not per key. -/
theorem fetch_dedup_amended (parseDate : String → Option Int) (now : Int)
    (processed : List (String × String)) (items : List RSSItem) :
    (∀ a ∈ fetch_business_news_rss parseDate now processed items,
        processed.contains a.article_id = false) ∧
    (∀ k : String × String, processed.contains k = false →
      (fetch_business_news_rss parseDate now processed items).countP
          (fun a => a.article_id == k)
        = items.countP
            (fun it => itemPasses parseDate now it && (itemKey it == k))) :=
  ⟨fetch_not_processed parseDate now processed items,
   fun k hk => fetch_countP_key parseDate now processed items k hk⟩


/-- Claim C3: whenever `extract_company_simple` returns a non-empty name,
that name occurs case-insensitively in the article text or title, or — for
a multi-word name — its first token does. -/
theorem extract_company_appears_in_text (apiKey : Option String)
    (reply : LLMReply) (article_text article_title : String) (name : String)
    (h : extract_company_simple apiKey reply article_text article_title = name)
    (hne : name ≠ "") :
    pyIn (pyLower name) (pyLower article_text) = true ∨
    pyIn (pyLower name) (pyLower article_title) = true ∨
    (1 < (pySplit name).length ∧
      ∃ w, (pySplit name).head? = some w ∧
        (pyIn (pyLower w) (pyLower article_text) = true ∨
         pyIn (pyLower w) (pyLower article_title) = true)) := by
  cases apiKey with
  | none => exact absurd h.symm hne
  | some key =>
    cases reply with
    | failure => exact absurd h.symm hne
    | parsed cn conf =>
      simp only [extract_company_simple] at h
      split at h
      · exact absurd h.symm hne
      · split at h
        · exact absurd h.symm hne
        · split at h
          · exact absurd h.symm hne
          · split at h
            · exact absurd h.symm hne
            · rename_i hnotskip happ hconf
              subst h
              have happ' :
                  (pyIn (pyLower (pyStrip (cn.getD ""))) (pyLower article_text) ||
                    pyIn (pyLower (pyStrip (cn.getD ""))) (pyLower article_title) ||
                    (decide (1 < (pySplit (pyStrip (cn.getD ""))).length) &&
                      (match pySplit (pyStrip (cn.getD "")) with
                       | [] => false
                       | w :: _ =>
                         pyIn (pyLower w) (pyLower article_text) ||
                         pyIn (pyLower w) (pyLower article_title)))) = true := by
                rcases Bool.eq_false_or_eq_true
                    (pyIn (pyLower (pyStrip (cn.getD ""))) (pyLower article_text) ||
                      pyIn (pyLower (pyStrip (cn.getD ""))) (pyLower article_title) ||
                      (decide (1 < (pySplit (pyStrip (cn.getD ""))).length) &&
                        (match pySplit (pyStrip (cn.getD "")) with
                         | [] => false
                         | w :: _ =>
                           pyIn (pyLower w) (pyLower article_text) ||
                           pyIn (pyLower w) (pyLower article_title)))) with ht | hf
                · exact ht
                · exact absurd (by rw [hf]; rfl) happ
              rcases Bool.or_eq_true_iff.mp happ' with hdir | hfirst
              · rcases Bool.or_eq_true_iff.mp hdir with hl | hr
                · exact Or.inl hl
                · exact Or.inr (Or.inl hr)
              · rcases Bool.and_eq_true_iff.mp hfirst with ⟨hlen, hmatch⟩
                refine Or.inr (Or.inr ⟨of_decide_eq_true hlen, ?_⟩)
                cases hws : pySplit (pyStrip (cn.getD "")) with
                | nil => rw [hws] at hmatch; exact absurd hmatch Bool.false_ne_true
                | cons w ws =>
                  rw [hws] at hmatch
                  exact ⟨w, rfl, Bool.or_eq_true_iff.mp hmatch⟩

/-- Witness for claim C3 at a concrete extraction that returns a
non-empty name. -/
theorem extract_company_appears_in_text_witness :
    pyIn (pyLower "Infosys")
        (pyLower "Infosys announced a new AI platform today.") = true ∨
    pyIn (pyLower "Infosys") (pyLower "Business news") = true ∨
    (1 < (pySplit "Infosys").length ∧
      ∃ w, (pySplit "Infosys").head? = some w ∧
        (pyIn (pyLower w)
            (pyLower "Infosys announced a new AI platform today.") = true ∨
         pyIn (pyLower w) (pyLower "Business news") = true)) :=
  extract_company_appears_in_text (some "k")
    (.parsed (some "Infosys") (some "high"))
    "Infosys announced a new AI platform today." "Business news" "Infosys"
    (by decide) (by decide)

/-- Membership in an `insertDesc` result is membership in the parts. -/
theorem mem_insertDesc (x y : String × Nat) (l : List (String × Nat)) :
    y ∈ insertDesc x l ↔ y = x ∨ y ∈ l := by
  induction l with
  | nil => simp [insertDesc]
  | cons z zs ih =>
    by_cases hz : z.2 ≤ x.2
    · simp [insertDesc, hz, List.mem_cons]
    · simp [insertDesc, hz, List.mem_cons, ih]
      tauto

/-- Inserting into a list sorted by descending score keeps it sorted. -/
theorem pairwise_insertDesc (x : String × Nat) (l : List (String × Nat))
    (hl : l.Pairwise (fun a b => b.2 ≤ a.2)) :
    (insertDesc x l).Pairwise (fun a b => b.2 ≤ a.2) := by
  induction l with
  | nil => simp [insertDesc]
  | cons z zs ih =>
    rcases List.pairwise_cons.mp hl with ⟨hz, hzs⟩
    by_cases hcmp : z.2 ≤ x.2
    · rw [insertDesc, if_pos hcmp]
      refine List.pairwise_cons.mpr ⟨?_, hl⟩
      intro b hb
      rcases List.mem_cons.mp hb with rfl | hbz
      · exact hcmp
      · exact le_trans (hz b hbz) hcmp
    · rw [insertDesc, if_neg hcmp]
      refine List.pairwise_cons.mpr ⟨?_, ih hzs⟩
      intro b hb
      rcases (mem_insertDesc x b zs).mp hb with rfl | hbz
      · exact le_of_not_le hcmp
      · exact hz b hbz

/-- The stable descending sort is sorted by descending score. -/
theorem pairwise_sortDescByScore (l : List (String × Nat)) :
    (sortDescByScore l).Pairwise (fun a b => b.2 ≤ a.2) := by
  induction l with
  | nil => exact List.Pairwise.nil
  | cons x xs ih => exact pairwise_insertDesc x (sortDescByScore xs) ih

/-- The ranked list `process.extract` returns is sorted by descending
score. -/
theorem pairwise_processExtract (scorer : String → String → Nat)
    (query : String) (choices : List String) (limit : Nat) :
    (processExtract scorer query choices limit).Pairwise
      (fun a b => b.2 ≤ a.2) :=
  (pairwise_sortDescByScore _).sublist (List.take_sublist _ _)

/-- A successful enrichment loop keeps at most as many results as ranked
pairs. -/
theorem buildResults_length (rows : List RefRow) (min_score : Nat)
    (ps : List (Nat × String × Nat)) (out : List MatchResult)
    (h : buildResults rows min_score ps = some out) :
    out.length ≤ ps.length := by
  induction ps generalizing out with
  | nil =>
    rw [buildResults] at h
    cases h
    exact Nat.le_refl 0
  | cons p rest ih =>
    obtain ⟨rank, name, score⟩ := p
    rw [buildResults] at h
    by_cases hs : score < min_score
    · rw [if_pos hs] at h
      exact le_trans (ih out h) (Nat.le_succ _)
    · rw [if_neg hs] at h
      cases hf : rows.find? (fun r => r.companyName == some name) with
      | none => rw [hf] at h; cases h
      | some row =>
        rw [hf] at h
        rcases Option.map_eq_some'.mp h with ⟨tail, htail, hout⟩
        rw [← hout]
        exact Nat.succ_le_succ (ih tail htail)

/-- Every result the enrichment loop keeps has a score at or above the
threshold. -/
theorem buildResults_score_ge (rows : List RefRow) (min_score : Nat)
    (ps : List (Nat × String × Nat)) (out : List MatchResult)
    (h : buildResults rows min_score ps = some out) :
    ∀ m ∈ out, min_score ≤ m.score := by
  induction ps generalizing out with
  | nil =>
    rw [buildResults] at h
    cases h
    intro m hm
    cases hm
  | cons p rest ih =>
    obtain ⟨rank, name, score⟩ := p
    rw [buildResults] at h
    by_cases hs : score < min_score
    · rw [if_pos hs] at h
      exact ih out h
    · rw [if_neg hs] at h
      cases hf : rows.find? (fun r => r.companyName == some name) with
      | none => rw [hf] at h; cases h
      | some row =>
        rw [hf] at h
        rcases Option.map_eq_some'.mp h with ⟨tail, htail, hout⟩
        intro m hm
        rw [← hout] at hm
        rcases List.mem_cons.mp hm with rfl | hmem
        · exact Nat.le_of_not_lt hs
        · exact ih tail htail m hmem

/-- The scores of a successful enrichment result form a sublist of the
ranked pairs' scores (order preserved, some dropped). -/
theorem buildResults_scores_sublist (rows : List RefRow) (min_score : Nat)
    (ps : List (Nat × String × Nat)) (out : List MatchResult)
    (h : buildResults rows min_score ps = some out) :
    (out.map (fun m => m.score)).Sublist (ps.map (fun p => p.2.2)) := by
  induction ps generalizing out with
  | nil =>
    rw [buildResults] at h
    cases h
    exact List.Sublist.refl []
  | cons p rest ih =>
    obtain ⟨rank, name, score⟩ := p
    rw [buildResults] at h
    by_cases hs : score < min_score
    · rw [if_pos hs] at h
      exact (ih out h).trans (List.sublist_cons_self _ _)
    · rw [if_neg hs] at h
      cases hf : rows.find? (fun r => r.companyName == some name) with
      | none => rw [hf] at h; cases h
      | some row =>
        rw [hf] at h
        rcases Option.map_eq_some'.mp h with ⟨tail, htail, hout⟩
        rw [← hout, List.map_cons]
        exact (ih tail htail).cons₂ _

/-- Numbering a list with `enumFrom` preserves pairwise relations on the
elements. -/
theorem pairwise_enumFrom_snd {α : Type} (l : List α) (n : Nat)
    (R : α → α → Prop) (h : l.Pairwise R) :
    (l.enumFrom n).Pairwise (fun p q => R p.2 q.2) := by
  have hm : ((l.enumFrom n).map Prod.snd).Pairwise R := by
    rw [List.enumFrom_map_snd]
    exact h
  exact List.pairwise_map.mp hm

/-- Claim C2: every candidate `get_isin_for_company` returns scores at
least `min_score`; the returned list is sorted by descending score; and at
most `top_n` results are returned — for every scorer, spreadsheet, query
and configuration. -/
theorem get_isin_score_sorted_bounded (scorer : String → String → Nat)
    (readExcel : Option RefTable) (company_name : String)
    (top_n min_score : Nat) :
    (∀ m ∈ get_isin_for_company scorer readExcel company_name top_n min_score,
        min_score ≤ m.score) ∧
    (get_isin_for_company scorer readExcel company_name top_n min_score).Pairwise
        (fun a b => b.score ≤ a.score) ∧
    (get_isin_for_company scorer readExcel company_name top_n min_score).length
        ≤ top_n := by
  by_cases hn : company_name = ""
  · simp [get_isin_for_company, hn]
  · cases readExcel with
    | none => simp [get_isin_for_company, hn]
    | some df =>
      by_cases hcol : df.hasCompanyColumn = true
      · have hget : get_isin_for_company scorer (some df) company_name top_n min_score
            = (buildResults df.rows min_score
                ((processExtract scorer company_name
                  (df.rows.filterMap (fun r => r.companyName)) top_n).enumFrom 1)).getD [] := by
          simp [get_isin_for_company, hn, hcol]
        rw [hget]
        cases hb : buildResults df.rows min_score
            ((processExtract scorer company_name
              (df.rows.filterMap (fun r => r.companyName)) top_n).enumFrom 1) with
        | none => simp
        | some out =>
          simp only [Option.getD_some]
          refine ⟨buildResults_score_ge _ _ _ _ hb, ?_, ?_⟩
          · have hpair0 := pairwise_enumFrom_snd
              (processExtract scorer company_name
                (df.rows.filterMap (fun r => r.companyName)) top_n) 1
              (fun a b => b.2 ≤ a.2)
              (pairwise_processExtract scorer company_name
                (df.rows.filterMap (fun r => r.companyName)) top_n)
            have hmap : ((((processExtract scorer company_name
                  (df.rows.filterMap (fun r => r.companyName)) top_n).enumFrom 1)).map
                    (fun p => p.2.2)).Pairwise (fun a b => b ≤ a) :=
              List.pairwise_map.mpr hpair0
            have hsub := buildResults_scores_sublist _ _ _ _ hb
            have houtmap : (out.map (fun m => m.score)).Pairwise (fun a b => b ≤ a) :=
              hmap.sublist hsub
            exact List.pairwise_map.mp houtmap
          · refine le_trans (buildResults_length _ _ _ _ hb) ?_
            rw [List.enumFrom_length]
            exact List.length_take_le _ _
      · have hcf : df.hasCompanyColumn = false := Bool.eq_false_iff.mpr hcol
        simp [get_isin_for_company, hn, hcf]

/-- The marking step only grows the dedup set. -/
theorem mark_processed_mono (processed : List (String × String))
    (returned : List Article) (k : String × String)
    (hk : k ∈ processed) : k ∈ mark_processed processed returned := by
  induction returned generalizing processed with
  | nil => exact hk
  | cons b rest ih => exact ih (b.article_id :: processed) (List.mem_cons_of_mem _ hk)

/-- Every returned article's identity key lands in the marked set. -/
theorem mem_mark_processed (processed : List (String × String))
    (returned : List Article) (a : Article) (ha : a ∈ returned) :
    a.article_id ∈ mark_processed processed returned := by
  induction returned generalizing processed with
  | nil => cases ha
  | cons b rest ih =>
    rcases List.mem_cons.mp ha with rfl | hm
    · exact mark_processed_mono (a.article_id :: processed) rest a.article_id
        (List.mem_cons_self _ _)
    · exact ih (b.article_id :: processed) hm

/-- Claim C10: in any driver-loop iteration in which at least one article
was scraped, the identity key of every item the feed fetcher returned that
iteration — including items whose scrape failed, produced a sentinel
marker, or was skipped — is added to the dedup set, so such items are
never retried. -/
theorem processed_marking_covers_fetched (parseDate : String → Option Int)
    (now : Int) (processed : List (String × String)) (items : List RSSItem)
    (resolve : String → Option String) (domainOf content : String → String)
    (extract : String → String → String) (nowStr : String)
    (h : scrape_all_articles resolve domainOf content extract nowStr
          (fetch_business_news_rss parseDate now processed items) ≠ []) :
    ∀ a ∈ fetch_business_news_rss parseDate now processed items,
      a.article_id ∈ mark_processed processed
        (main_returned parseDate now processed items resolve domainOf content
          extract nowStr) := by
  intro a ha
  have hfetch : (fetch_business_news_rss parseDate now processed items).isEmpty
      = false := by
    cases hF : fetch_business_news_rss parseDate now processed items with
    | nil =>
      exfalso
      apply h
      rw [hF]
      rfl
    | cons x xs => rfl
  have hscr : (scrape_all_articles resolve domainOf content extract nowStr
      (fetch_business_news_rss parseDate now processed items)).isEmpty = false :=
    List.isEmpty_eq_false.mpr h
  have hmain : main_returned parseDate now processed items resolve domainOf
      content extract nowStr
      = fetch_business_news_rss parseDate now processed items := by
    rw [main_returned]
    simp only [hfetch, hscr, Bool.false_eq_true, if_false]
  rw [hmain]
  exact mem_mark_processed processed _ a ha

/-- Witness for claim C10 at a concrete iteration with one fetched and
successfully scraped article. -/
theorem processed_marking_covers_fetched_witness :
    freshArticle.article_id ∈ mark_processed []
      (main_returned pdNone 0 [] [freshItem] (fun _ => none) (fun _ => "d")
        (fun _ => "some text") (fun _ _ => "") "2026-01-01") :=
  processed_marking_covers_fetched pdNone 0 [] [freshItem] (fun _ => none)
    (fun _ => "d") (fun _ => "some text") (fun _ _ => "") "2026-01-01"
    (by decide) freshArticle (by decide)
